import Mathlib

/-!
Verification of the 1C MCP test-harness scripts (`testMCP.py`, `testMCP_gpt.py`,
`testMCP_grok_plus.py`, `testMCP_grok_plus_2.py`) against their natural-language
specification.  Python values decoded from JSON are shallowly embedded as `PyVal`;
string manipulation is embedded at the character-list level so that every
definition is executable by the kernel.  The external JSON codec (`json.loads` /
`response.json()`) is treated as an abstract boundary: functions that call it are
parameterized by a `JsonParser`.
-/

namespace MCPSpec

/-- Python values as produced by `json.loads` (plus `None`/`bool`/`int` scalars).
Dictionaries are association lists keyed by strings, matching the JSON object
shapes manipulated by the scripts. -/
inductive PyVal where
  | null : PyVal
  | bool : Bool → PyVal
  | int : Int → PyVal
  | str : String → PyVal
  | list : List PyVal → PyVal
  | dict : List (String × PyVal) → PyVal

mutual

/-- Structural equality of embedded Python values; this is exactly Python's
`==` on values decoded from JSON. -/
def PyVal.beq : PyVal → PyVal → Bool
  | .null, .null => true
  | .bool a, .bool b => a == b
  | .int a, .int b => a == b
  | .str a, .str b => a == b
  | .list a, .list b => beqList a b
  | .dict a, .dict b => beqDict a b
  | _, _ => false

/-- `==` on lists of Python values. -/
def beqList : List PyVal → List PyVal → Bool
  | [], [] => true
  | x :: xs, y :: ys => PyVal.beq x y && beqList xs ys
  | _, _ => false

/-- `==` on dicts of Python values. -/
def beqDict : List (String × PyVal) → List (String × PyVal) → Bool
  | [], [] => true
  | (k, v) :: xs, (l, w) :: ys => k == l && PyVal.beq v w && beqDict xs ys
  | _, _ => false

end

instance : BEq PyVal := ⟨PyVal.beq⟩

/-- Characters stripped by Python `str.strip()` (the ASCII whitespace actually
reachable in the harness's payloads). -/
def isPySpace (c : Char) : Bool :=
  c = ' ' || c = '\t' || c = '\n' || c = '\r' || c = '\x0b' || c = '\x0c'

/-- `str.strip()` on a character list. -/
def trimL (l : List Char) : List Char :=
  ((l.dropWhile isPySpace).reverse.dropWhile isPySpace).reverse

/-- `str.strip()`. -/
def trimS (s : String) : String := String.mk (trimL s.data)

/-- `str.split(sep)` for a one-character separator, with Python semantics:
`"a\nb".split("\n") = ["a","b"]`, `"".split("\n") = [""]`. -/
def splitCharL (sep : Char) : List Char → List (List Char)
  | [] => [[]]
  | c :: cs =>
    if c = sep then [] :: splitCharL sep cs
    else
      match splitCharL sep cs with
      | [] => [[c]]
      | l :: ls => (c :: l) :: ls

/-- `str.split("\n")`. -/
def splitLinesS (s : String) : List String := (splitCharL '\n' s.data).map String.mk

/-- `str.startswith(p)`. -/
def startsWithS (s p : String) : Bool := p.data.isPrefixOf s.data

/-- Python substring containment `needle in hay`. -/
def containsSubL (needle : List Char) : List Char → Bool
  | [] => needle.isEmpty
  | c :: cs => needle.isPrefixOf (c :: cs) || containsSubL needle cs

/-- Python substring containment `needle in hay` on `String`. -/
def containsSubS (hay needle : String) : Bool := containsSubL needle.data hay.data

/-- `s[n:]` (drop the first `n` characters). -/
def dropS (s : String) (n : Nat) : String := String.mk (s.data.drop n)

/-- `"\n".join(ls)` on character lists. -/
def joinNLL : List (List Char) → List Char
  | [] => []
  | [l] => l
  | l :: ls => l ++ '\n' :: joinNLL ls

/-- `"\n".join(ls)`. -/
def joinNLS (ls : List String) : String := String.mk (joinNLL (ls.map String.data))

/-- `str.lower()` restricted to the alphabets occurring in the harness's
keyword table: ASCII letters and the Russian alphabet (`А`-`Я` and `Ё`). -/
def pyLowerChar (c : Char) : Char :=
  if 'A' ≤ c ∧ c ≤ 'Z' then Char.ofNat (c.toNat + 32)
  else if c = 'Ё' then 'ё'
  else if 'А' ≤ c ∧ c ≤ 'Я' then Char.ofNat (c.toNat + 32)
  else c

/-- `str.lower()`. -/
def pyLowerS (s : String) : String := String.mk (s.data.map pyLowerChar)

/-- Python truthiness (`bool(v)`). -/
def pyTruthy : PyVal → Bool
  | .null => false
  | .bool b => b
  | .int n => n ≠ 0
  | .str s => s ≠ ""
  | .list xs => !xs.isEmpty
  | .dict kvs => !kvs.isEmpty

/-- `d.get(k)` / `d[k]` lookup on an embedded dict. -/
def dictGet (kvs : List (String × PyVal)) (k : String) : Option PyVal :=
  match kvs.find? (fun kv => kv.1 = k) with
  | some kv => some kv.2
  | none => none

/-- `k in d` for a dict. -/
def hasKey (kvs : List (String × PyVal)) (k : String) : Bool := (dictGet kvs k).isSome

/-- Python `needle in v` for a string needle.  `none` models the `TypeError`
raised when `v` is an `int`, `bool` or `None`. -/
def pyIn (needle : String) : PyVal → Option Bool
  | .dict kvs => some (hasKey kvs needle)
  | .list xs => some (xs.contains (.str needle))
  | .str s => some (containsSubS s needle)
  | _ => none

mutual

/-- Python `repr()` of an embedded value (string escaping inside nested
strings is not modelled; the theorems below only evaluate it on scalars). -/
def pyRepr : PyVal → String
  | .null => "None"
  | .bool true => "True"
  | .bool false => "False"
  | .int n => toString n
  | .str s => "\x27" ++ s ++ "\x27"
  | .list xs => "[" ++ pyReprList xs ++ "]"
  | .dict kvs => "\x7b" ++ pyReprDict kvs ++ "\x7d"

/-- `repr()` of the comma-separated elements of a list. -/
def pyReprList : List PyVal → String
  | [] => ""
  | [x] => pyRepr x
  | x :: xs => pyRepr x ++ ", " ++ pyReprList xs

/-- `repr()` of the comma-separated entries of a dict. -/
def pyReprDict : List (String × PyVal) → String
  | [] => ""
  | [(k, v)] => "\x27" ++ k ++ "\x27: " ++ pyRepr v
  | (k, v) :: kvs => "\x27" ++ k ++ "\x27: " ++ pyRepr v ++ ", " ++ pyReprDict kvs

end

/-- Python `str()` as used by f-string interpolation. -/
def pyStr : PyVal → String
  | .str s => s
  | v => pyRepr v

/-! ## Transport layer

`MCPClient._make_request` posts a JSON-RPC envelope and decodes the response.
The HTTP exchange is embedded as an `HttpOutcome` oracle: either the server
answered with a status code and a raw body, or the post itself raised
(connection refused, timeout).  The JSON codec is an abstract `JsonParser`
whose `Except.error` value carries `str(e)` of the decode exception. -/

/-- Outcome of `self.client.post(...)`. -/
inductive HttpOutcome where
  | response (status : Nat) (body : String)
  | failure (cause : String)

/-- Abstract boundary for `json.loads` / `response.json()`. -/
abbrev JsonParser := String → Except String PyVal

/-- `response.raise_for_status()` raises unless the status is a 2xx success. -/
def is2xx (status : Nat) : Bool := 200 ≤ status && status ≤ 299

/-- Event-stream payload extraction of `_make_request` (grok_plus and
grok_plus_2 variants): keep every line beginning with `data:`, drop the
five-character marker, strip, and join with newlines. -/
def extractSseData (text : String) : String :=
  joinNLS (((splitLinesS text).filter (fun l => startsWithS l "data:")).map
    (fun l => trimS (dropS l 5)))

/-- Body decoding of `_make_request` (`testMCP_grok_plus_2.py` lines 114-120):
strip the body, detect the event-stream framing by its leading token, and
parse either the joined `data:` payloads or the body itself. -/
def decodeBody (parse : JsonParser) (body : String) : Except String PyVal :=
  if startsWithS (trimS body) "event:" then parse (extractSseData (trimS body))
  else parse body

/-- `MCPClient._make_request` of `testMCP_grok_plus_2.py` (lines 110-126) and
`testMCP_grok_plus.py`, as a function of the HTTP oracle.  The three `except`
arms become the three error dictionaries. -/
def makeRequest (parse : JsonParser) (out : HttpOutcome) : PyVal :=
  match out with
  | .failure cause => .dict [("error", .str cause)]
  | .response status body =>
    if is2xx status then
      match decodeBody parse body with
      | .ok v => v
      | .error cause =>
        .dict [("error", .str ("JSON decode error: " ++ cause ++ " - Response: " ++ body))]
    else
      .dict [("error", .str ("HTTP " ++ toString status ++ ": " ++ body))]

/-- Client state: the only mutable field the claims depend on. -/
structure ClientState where
  sessionId : Option String
deriving DecidableEq, Repr

/-- Request headers built by `_make_request` (`testMCP_grok_plus_2.py` lines
93-101).  Python's `if self.auth_token:` / `if self.session_id:` are
truthiness tests, so an empty string behaves like an absent value. -/
def buildHeaders (authToken sessionId : Option String) : List (String × String) :=
  [("Content-Type", "application/json"),
   ("Accept", "application/json, text/event-stream")]
  ++ (match authToken with
      | some t => if t = "" then [] else [("Authorization", "Bearer " ++ t)]
      | none => [])
  ++ (match sessionId with
      | some s => if s = "" then [] else [("Mcp-Session-Id", s)]
      | none => [])

/-- The `initialize` handshake returns `True` only when the decoded body is a
dict whose `result` value is itself a dict and whose optional `serverInfo`
field is a dict (otherwise the `result.get(...)` diagnostics chain raises and
the surrounding `try` returns `False`). -/
def initOk (data : PyVal) : Bool :=
  match data with
  | .dict kvs =>
    match dictGet kvs "result" with
    | some (.dict rkvs) =>
      match dictGet rkvs "serverInfo" with
      | some (.dict _) => true
      | none => true
      | some _ => false
    | _ => false
  | _ => false

/-- `MCPClient.initialize_session` of `testMCP_grok_plus_2.py` (lines 29-87):
decode the body with the same dual-framing policy, and on a populated result
store `resp.headers.get("Mcp-Session-Id")` (httpx header lookup is
case-insensitive; the response header map is embedded as a lookup function).
Every failure path returns `False` with the state unchanged. -/
def initializeSession (parse : JsonParser) (st : ClientState) (out : HttpOutcome)
    (respHeader : String → Option String) : Bool × ClientState :=
  match out with
  | .failure _ => (false, st)
  | .response _ body =>
    match decodeBody parse body with
    | .error _ => (false, st)
    | .ok data =>
      if initOk data then (true, { st with sessionId := respHeader "Mcp-Session-Id" })
      else (false, st)

/-- One post-handshake tool request of the grok_plus_2 client: the headers
actually attached and the decoded response.  Unlike the gpt variant there is
no session guard, so the request is posted regardless of `sessionId`. -/
def grokToolRequest (st : ClientState) (authToken : Option String)
    (parse : JsonParser) (out : HttpOutcome) : List (String × String) × PyVal :=
  (buildHeaders authToken st.sessionId, makeRequest parse out)

/-! ## Call dispatcher (`call_tool`) -/

/-- Normalized tool content items (`mcp.types.TextContent` /
`mcp.types.ImageContent`). -/
inductive ContentItem where
  | text (t : String)
  | image (data mimeType : String)
deriving DecidableEq, Repr

/-- `mcp.types.CallToolResult` restricted to the fields the harness uses. -/
structure ToolResult where
  content : List ContentItem
  isError : Bool
deriving DecidableEq, Repr

/-- `for item in content_data` over an arbitrary decoded value: a list yields
its elements, a string yields its characters (as 1-character strings), a dict
yields its keys; scalars raise `TypeError` (`none`). -/
def iterItems : PyVal → Option (List PyVal)
  | .list xs => some xs
  | .str s => some (s.data.map (fun c => .str (String.mk [c])))
  | .dict kvs => some (kvs.map (fun kv => .str kv.1))
  | _ => none

/-- The content loop of `call_tool` in `testMCP_grok_plus_2.py` (lines
158-160), `testMCP_grok_plus.py` and `testMCP_gpt.py`: keep only items whose
`type` equals `"text"`.  `none` models the exceptions raised on a non-dict
item (`AttributeError` on `.get`) or a non-string `text` field (pydantic
validation). -/
def extractTextItems : List PyVal → Option (List ContentItem)
  | [] => some []
  | item :: rest =>
    match item with
    | .dict kvs =>
      if (dictGet kvs "type").getD .null == PyVal.str "text" then
        match (dictGet kvs "text").getD (.str "") with
        | .str t => (extractTextItems rest).map (fun r => .text t :: r)
        | _ => none
      else extractTextItems rest
    | _ => none

/-- The content loop of `call_tool` in `testMCP.py` (lines 110-122): keeps
both `text` and `image` items. -/
def extractItemsM : List PyVal → Option (List ContentItem)
  | [] => some []
  | item :: rest =>
    match item with
    | .dict kvs =>
      if (dictGet kvs "type").getD .null == PyVal.str "text" then
        match (dictGet kvs "text").getD (.str "") with
        | .str t => (extractItemsM rest).map (fun r => .text t :: r)
        | _ => none
      else if (dictGet kvs "type").getD .null == PyVal.str "image" then
        match (dictGet kvs "data").getD (.str ""), (dictGet kvs "mimeType").getD (.str "") with
        | .str d, .str m => (extractItemsM rest).map (fun r => .image d m :: r)
        | _, _ => none
      else extractItemsM rest
    | _ => none

/-- `MCPClient.call_tool` of `testMCP_grok_plus_2.py` (lines 146-161, same
code in grok_plus and gpt) applied to the `_make_request` response.  On the
success path `isError` is the literal `False`; the payload's `isError` field
is never read.  `none` models the exceptions Python would raise on payload
shapes the script does not guard against. -/
def callToolOnResp (resp : PyVal) : Option ToolResult :=
  match pyIn "error" resp with
  | none => none
  | some true =>
    match resp with
    | .dict kvs =>
      some ⟨[.text ("Error: " ++ pyStr ((dictGet kvs "error").getD .null))], true⟩
    | _ => none
  | some false =>
    match resp with
    | .dict kvs =>
      match (dictGet kvs "result").getD (.dict []) with
      | .dict rkvs =>
        match iterItems ((dictGet rkvs "content").getD (.list [])) with
        | none => none
        | some items =>
          match extractTextItems items with
          | none => none
          | some content => some ⟨content, false⟩
      | _ => none
    | _ => none

/-- `MCPClient.call_tool` of `testMCP.py` (lines 87-127): like the other
variants on the error branch, but the success branch keeps image items and
reads `isError` from `result_data.get("isError", False)`.  A non-boolean
`isError` value is modelled as a pydantic validation failure (`none`). -/
def callToolOnRespM (resp : PyVal) : Option ToolResult :=
  match pyIn "error" resp with
  | none => none
  | some true =>
    match resp with
    | .dict kvs =>
      some ⟨[.text ("Error: " ++ pyStr ((dictGet kvs "error").getD .null))], true⟩
    | _ => none
  | some false =>
    match resp with
    | .dict kvs =>
      match (dictGet kvs "result").getD (.dict []) with
      | .dict rkvs =>
        match iterItems ((dictGet rkvs "content").getD (.list [])) with
        | none => none
        | some items =>
          match extractItemsM items with
          | none => none
          | some content =>
            match dictGet rkvs "isError" with
            | none => some ⟨content, false⟩
            | some (.bool b) => some ⟨content, b⟩
            | some _ => none
      | _ => none
    | _ => none

/-! ## The gpt variant (`testMCP_gpt.py`) -/

/-- `text.split("data:", 1)[1]`: the suffix after the first occurrence of the
needle, `none` when the needle is absent (Python raises `IndexError`).  Only
used with the non-empty needle `"data:"`. -/
def afterFirstL (needle : List Char) : List Char → Option (List Char)
  | [] => none
  | c :: cs =>
    if needle.isPrefixOf (c :: cs) then some (List.drop needle.length (c :: cs))
    else afterFirstL needle cs

/-- The `try` body of `initialize_session` in `testMCP_gpt.py` (lines 54-75)
reduced to the boolean it returns; every exception path yields `False`. -/
def gptInitResult (parse : JsonParser) (out : HttpOutcome) : Bool :=
  match out with
  | .failure _ => false
  | .response _ body =>
    let text := trimS body
    let parsed : Option PyVal :=
      if startsWithS text "event:" then
        match afterFirstL ("data:".data) text.data with
        | none => none
        | some rest =>
          match parse (trimS (String.mk rest)) with
          | .ok d => some d
          | .error _ => none
      else
        match parse text with
        | .ok d => some d
        | .error _ => none
    match parsed with
    | none => false
    | some d => initOk d

/-- `initialize_session` of `testMCP_gpt.py` never assigns `self.session_id`
on any path, so the client state is returned unchanged. -/
def gptInitializeSession (parse : JsonParser) (st : ClientState) (out : HttpOutcome) :
    Bool × ClientState :=
  (gptInitResult parse out, st)

/-- `_make_request` body of `testMCP_gpt.py` after the session guard (lines
100-107): no dedicated `json.JSONDecodeError` arm, so a decode failure falls
into the generic handler and the error value is just `str(e)`. -/
def gptTransport (parse : JsonParser) (out : HttpOutcome) : PyVal :=
  match out with
  | .failure cause => .dict [("error", .str cause)]
  | .response status body =>
    if is2xx status then
      match parse body with
      | .ok v => v
      | .error cause => .dict [("error", .str cause)]
    else
      .dict [("error", .str ("HTTP " ++ toString status ++ ": " ++ body))]

/-- `_make_request` of `testMCP_gpt.py` (lines 78-107): the session guard
(`if not self.session_id`) short-circuits with an error dict before any HTTP
request is made.  The boolean records whether a request was posted. -/
def gptMakeRequest (st : ClientState) (parse : JsonParser) (out : HttpOutcome) :
    PyVal × Bool :=
  match st.sessionId with
  | none => (.dict [("error", .str "Session not initialized")], false)
  | some s =>
    if s = "" then (.dict [("error", .str "Session not initialized")], false)
    else (gptTransport parse out, true)

/-- `call_tool` of `testMCP_gpt.py` (lines 127-142).  The tool name and
arguments only enter the posted JSON-RPC envelope, which the `HttpOutcome`
oracle abstracts. -/
def gptCallTool (st : ClientState) (parse : JsonParser) (_name : String)
    (_args : PyVal) (out : HttpOutcome) : Option ToolResult × Bool :=
  let ro := gptMakeRequest st parse out
  (callToolOnResp ro.1, ro.2)

/-! ## Result classifier (`run_tests_async` of `testMCP_grok_plus_2.py`)

The decoded payload handed to the classifier is the return value of the
`test_*` wrapper functions: an `error` dict when `call_tool` reported an
error, the `json.loads` of the first text item otherwise, or a
`result`-wrapped raw string when that parse fails. -/

/-- Outcome classification of one tool call. -/
inductive Verdict where
  | success
  | error
  | skipped
deriving DecidableEq, Repr

/-- The keyword table of `testMCP_grok_plus_2.py` line 250. -/
def errorKeywords : List String :=
  ["ошибка", "исключение", "не найден", "error", "exception", "not found",
   "вызватьисключение"]

/-- Keyword scan of a `result` lookup: the value is a string containing some
keyword of the table case-insensitively. -/
def keywordResult : Option PyVal → Bool
  | some (.str s) => errorKeywords.any (fun kw => containsSubS (pyLowerS s) kw)
  | _ => false

/-- The keyword arm of the classifier chain: the payload is a dict whose
`result` value is a string containing some keyword case-insensitively. -/
def keywordHit (r : PyVal) : Bool :=
  match r with
  | .dict kvs => keywordResult (dictGet kvs "result")
  | _ => false

/-- The emptiness arm of the classifier chain: an empty list, or a dict whose
`result` value equals the empty string. -/
def emptyHit (r : PyVal) : Bool :=
  match r with
  | .list xs => xs.isEmpty
  | .dict kvs => (dictGet kvs "result").getD .null == PyVal.str ""
  | _ => false

/-- The `if "error" in result / elif keyword / elif empty / else` chain
repeated at every step of `run_tests_async` (`testMCP_grok_plus_2.py` lines
284-294).  `none` models the `TypeError` Python raises when `"error" in r`
is applied to a scalar. -/
def classify (r : PyVal) : Option Verdict :=
  match pyIn "error" r with
  | none => none
  | some true => some .error
  | some false =>
    if keywordHit r then some .error
    else if emptyHit r then some .skipped
    else some .success

/-! ## Listing parsers of the exploration driver -/

/-- `obj.split(".")[-1] if "." in obj else obj` for a string. -/
def stripDot (s : String) : String :=
  if containsSubS s "." then String.mk ((splitCharL '.' s.data).getLastD []) else s

/-- `obj.split(".")[-1] if "." in obj else obj` for an arbitrary element of a
structured listing.  `in` on a list or dict is membership (over elements or
keys), in which case a hit makes `obj.split` raise (`none`); scalars make the
`in` itself raise. -/
def dotName (x : PyVal) : Option PyVal :=
  match x with
  | .str s => some (.str (stripDot s))
  | .list xs => if xs.contains (PyVal.str ".") then none else some (.list xs)
  | .dict kvs => if hasKey kvs "." then none else some (.dict kvs)
  | _ => none

/-- The structured-listing comprehension (`testMCP_grok_plus_2.py` line 299):
`[{"name": dotName obj} for obj in xs if obj]`.  The parsed objects are always
singleton `name` dicts, so they are embedded as the name values themselves. -/
def namesFromList : List PyVal → Option (List PyVal)
  | [] => some []
  | x :: xs =>
    if pyTruthy x then
      match dotName x with
      | some n => (namesFromList xs).map (fun r => n :: r)
      | none => none
    else namesFromList xs

/-- The free-text listing loop (`testMCP_grok_plus_2.py` lines 303-310):
split on newlines, strip, take the part before a parenthesis, strip dotted
prefixes, keep non-empty names. -/
def namesFromLines (txt : String) : List PyVal :=
  (splitLinesS txt).foldr
    (fun rawLine acc =>
      let line := trimS rawLine
      if line = "" then acc
      else
        let name0 :=
          if containsSubS line "(" then trimS (String.mk (line.data.takeWhile (fun c => c ≠ '(')))
          else trimS line
        let name1 := stripDot name0
        if name1 = "" then acc else .str name1 :: acc)
    []

/-- Step-3 listing parser of `testMCP_grok_plus_2.py` (lines 297-312):
structured sequence, `result` text blob, `result` sequence, or nothing. -/
def parseObjects (r : PyVal) : Option (List PyVal) :=
  match r with
  | .list xs => namesFromList xs
  | .dict kvs =>
    match dictGet kvs "result" with
    | some (.str txt) => some (namesFromLines txt)
    | some (.list xs) => namesFromList xs
    | _ => some []
  | _ => some []

/-- The literal prefix `"Имя: '"` recognized in predefined listings. -/
def nameMarker : String := "Имя: \x27"

/-- The predefined free-text loop (`testMCP_grok_plus_2.py` lines 361-367):
keep lines starting with the name marker, drop the marker, strip. -/
def predNamesFromLines (txt : String) : List PyVal :=
  (splitLinesS txt).foldr
    (fun rawLine acc =>
      let line := trimS rawLine
      if line ≠ "" && startsWithS line nameMarker then
        let name := trimS (dropS line nameMarker.length)
        if name = "" then acc else .str name :: acc
      else acc)
    []

/-- Step-5 predefined listing parser (`testMCP_grok_plus_2.py` lines 355-369). -/
def parsePredefined (r : PyVal) : Option (List PyVal) :=
  match r with
  | .list xs => namesFromList xs
  | .dict kvs =>
    match dictGet kvs "result" with
    | some (.str txt) => some (predNamesFromLines txt)
    | some (.list xs) => namesFromList xs
    | _ => some []
  | _ => some []

/-! ## Statistics aggregator -/

/-- Per-method counters (`method_stats[m]`). -/
structure MethodStats where
  total : Nat
  success : Nat
  errors : Nat
  skipped : Nat
deriving DecidableEq, Repr

/-- Fresh counters. -/
def MethodStats.zero : MethodStats := ⟨0, 0, 0, 0⟩

/-- Recording one verdict: the `+= 1` pair executed at each classification
site (always `total`, plus exactly the matching outcome counter). -/
def recordVerdict (m : MethodStats) (v : Verdict) : MethodStats :=
  match v with
  | .success => { m with total := m.total + 1, success := m.success + 1 }
  | .error => { m with total := m.total + 1, errors := m.errors + 1 }
  | .skipped => { m with total := m.total + 1, skipped := m.skipped + 1 }

/-- The four tool methods, in the order of the `methods` list. -/
inductive Method where
  | listObjects
  | getStructure
  | listPredefined
  | getPredefined
deriving DecidableEq, Repr

/-- The full `method_stats` table. -/
structure Stats where
  listObjects : MethodStats
  getStructure : MethodStats
  listPredefined : MethodStats
  getPredefined : MethodStats
deriving DecidableEq, Repr

/-- Empty statistics table. -/
def Stats.zero : Stats := ⟨.zero, .zero, .zero, .zero⟩

/-- Record a verdict for one method. -/
def record (s : Stats) (m : Method) (v : Verdict) : Stats :=
  match m with
  | .listObjects => { s with listObjects := recordVerdict s.listObjects v }
  | .getStructure => { s with getStructure := recordVerdict s.getStructure v }
  | .listPredefined => { s with listPredefined := recordVerdict s.listPredefined v }
  | .getPredefined => { s with getPredefined := recordVerdict s.getPredefined v }

/-! ## Exploration driver: one trial round -/

/-- The predefined-capable meta-type subset (`testMCP_grok_plus_2.py` lines
244-246). -/
def predefinedSupportedTypes : List String :=
  ["Catalogs", "ChartsOfCharacteristicTypes", "ChartsOfAccounts",
   "ChartsOfCalculationTypes"]

/-- Inputs of one trial round: the selected meta-type, the decoded outcomes
the remote service would return for each step (as produced by the `test_*`
wrappers), and the random draws.  `objPick` embeds `random.choice` as an
index; `samplePick` embeds the composite `num_to_test = min(len, randint(1,3))`
plus `random.sample` draw. -/
structure RoundEnv where
  metaType : String
  listResult : PyVal
  structResult : PyVal
  predListResult : PyVal
  predResult : PyVal → PyVal
  objPick : Nat
  samplePick : List PyVal → List PyVal

/-- `random.choice(objects)` with the draw embedded as an index. -/
def chooseAt (xs : List PyVal) (i : Nat) : PyVal := xs.getD (i % xs.length) .null

/-- The step-5 loop over the sampled predefined entries
(`testMCP_grok_plus_2.py` lines 376-392): for each entry with a truthy name,
call `get_predefined_data`, classify, record.  A sibling entry's failure does
not stop the loop; a classifier `TypeError` (`none`) aborts the run. -/
def recordPredCalls (env : RoundEnv) : List PyVal → List Method × Stats →
    Option (List Method × Stats)
  | [], acc => some acc
  | nm :: rest, acc =>
    if pyTruthy nm then
      match classify (env.predResult nm) with
      | none => none
      | some dv =>
        recordPredCalls env rest (acc.1 ++ [Method.getPredefined], record acc.2 .getPredefined dv)
    else recordPredCalls env rest acc

/-- One trial round of `run_tests_async` (`testMCP_grok_plus_2.py` lines
252-392) after the `list_metadata_objects` call, returning the sequence of
tool calls issued and the updated statistics.  `none` models a Python
exception escaping the loop. -/
def runRound (env : RoundEnv) (s0 : Stats) : Option (List Method × Stats) :=
  match classify env.listResult with
  | none => none
  | some v =>
    let s1 := record s0 .listObjects v
    match v with
    | .error => some ([.listObjects], s1)
    | .skipped => some ([.listObjects], s1)
    | .success =>
      match parseObjects env.listResult with
      | none => none
      | some objects =>
        if objects.isEmpty then some ([.listObjects], s1)
        else
          let objectName := chooseAt objects env.objPick
          if pyTruthy objectName then
            match classify env.structResult with
            | none => none
            | some sv =>
              let s2 := record s1 .getStructure sv
              if env.metaType ∈ predefinedSupportedTypes then
                match classify env.predListResult with
                | none => none
                | some pv =>
                  let s3 := record s2 .listPredefined pv
                  let calls := [Method.listObjects, .getStructure, .listPredefined]
                  match pv with
                  | .error => some (calls, s3)
                  | .skipped => some (calls, s3)
                  | .success =>
                    match parsePredefined env.predListResult with
                    | none => none
                    | some pobjs =>
                      if pobjs.isEmpty then some (calls, s3)
                      else recordPredCalls env (env.samplePick pobjs) (calls, s3)
              else some ([.listObjects, .getStructure], s2)
          else some ([.listObjects], s1)

/-! ## Final summary -/

/-- One row of the summary table; the success rate is kept as an exact
rational (the script computes it in floating point, but the claims only
concern the formula and its zero-total guard). -/
structure SummaryRow where
  method : String
  total : Nat
  success : Nat
  errors : Nat
  skipped : Nat
  rate : ℚ
deriving DecidableEq, Repr

/-- `success / total * 100 if total > 0 else 0`
(`testMCP_grok_plus_2.py` line 412). -/
def successRate (success total : Nat) : ℚ :=
  if 0 < total then (success : ℚ) / (total : ℚ) * 100 else 0

/-- One summary row for a method. -/
def mkRow (name : String) (m : MethodStats) : SummaryRow :=
  ⟨name, m.total, m.success, m.errors, m.skipped, successRate m.success m.total⟩

/-- The fixed row order of the summary loop (the `methods` list). -/
def methodOrder : List String :=
  ["list_metadata_objects", "get_metadata_structure", "list_predefined_data",
   "get_predefined_data"]

/-- The summary block of `run_tests_async` (`testMCP_grok_plus_2.py` lines
396-422): one row per method in the fixed order, plus the totals row summing
the four methods' counters. -/
def summarize (s : Stats) : List SummaryRow × SummaryRow :=
  let rows := [mkRow "list_metadata_objects" s.listObjects,
               mkRow "get_metadata_structure" s.getStructure,
               mkRow "list_predefined_data" s.listPredefined,
               mkRow "get_predefined_data" s.getPredefined]
  let totalAll := s.listObjects.total + s.getStructure.total
    + s.listPredefined.total + s.getPredefined.total
  let totalSuccess := s.listObjects.success + s.getStructure.success
    + s.listPredefined.success + s.getPredefined.success
  let totalErrors := s.listObjects.errors + s.getStructure.errors
    + s.listPredefined.errors + s.getPredefined.errors
  let totalSkipped := s.listObjects.skipped + s.getStructure.skipped
    + s.listPredefined.skipped + s.getPredefined.skipped
  (rows, ⟨"Итого", totalAll, totalSuccess, totalErrors, totalSkipped,
    successRate totalSuccess totalAll⟩)

/-! ## Helper lemmas about stripping, line splitting and joining -/

theorem mk_data (s : String) : String.mk s.data = s := rfl

theorem data_ne_nil {s : String} (h : s ≠ "") : s.data ≠ [] := by
  intro e
  apply h
  have := congrArg String.mk e
  rwa [mk_data] at this

theorem dropWhile_eq_self_of_head? {l : List Char}
    (h : ∀ c, l.head? = some c → isPySpace c = false) :
    l.dropWhile isPySpace = l := by
  cases l with
  | nil => rfl
  | cons c cs =>
    rw [List.dropWhile_cons, h c rfl]
    simp

theorem reverse_dropWhile_eq_self {l : List Char}
    (h : ∀ c, l.getLast? = some c → isPySpace c = false) :
    l.reverse.dropWhile isPySpace = l.reverse := by
  apply dropWhile_eq_self_of_head?
  intro c hc
  rw [List.head?_reverse] at hc
  exact h c hc

theorem trimL_eq_self {l : List Char}
    (h1 : ∀ c, l.head? = some c → isPySpace c = false)
    (h2 : ∀ c, l.getLast? = some c → isPySpace c = false) :
    trimL l = l := by
  unfold trimL
  rw [dropWhile_eq_self_of_head? h1, reverse_dropWhile_eq_self h2, List.reverse_reverse]

theorem trimL_space_cons {l : List Char}
    (h1 : ∀ c, l.head? = some c → isPySpace c = false)
    (h2 : ∀ c, l.getLast? = some c → isPySpace c = false) :
    trimL (' ' :: l) = l := by
  unfold trimL
  rw [List.dropWhile_cons, show isPySpace ' ' = true from rfl, if_pos rfl]
  rw [dropWhile_eq_self_of_head? h1, reverse_dropWhile_eq_self h2, List.reverse_reverse]

theorem splitCharL_no_sep {sep : Char} :
    ∀ {l : List Char}, sep ∉ l → splitCharL sep l = [l]
  | [], _ => rfl
  | c :: cs, h => by
    have hc : ¬ c = sep := fun e => h (List.mem_cons.mpr (Or.inl e.symm))
    have hcs : sep ∉ cs := fun m => h (List.mem_cons_of_mem _ m)
    unfold splitCharL
    rw [if_neg hc, splitCharL_no_sep hcs]

theorem splitCharL_append {sep : Char} (rest : List Char) :
    ∀ {l : List Char}, sep ∉ l →
      splitCharL sep (l ++ sep :: rest) = l :: splitCharL sep rest
  | [], _ => by
    show splitCharL sep (sep :: rest) = [] :: splitCharL sep rest
    simp only [splitCharL]
    rw [if_pos trivial]
  | c :: cs, h => by
    have hc : ¬ c = sep := fun e => h (List.mem_cons.mpr (Or.inl e.symm))
    have hcs : sep ∉ cs := fun m => h (List.mem_cons_of_mem _ m)
    show splitCharL sep (c :: (cs ++ sep :: rest)) = (c :: cs) :: splitCharL sep rest
    simp only [splitCharL]
    rw [if_neg hc, splitCharL_append rest hcs]

theorem splitCharL_joinNLL :
    ∀ {L : List (List Char)}, L ≠ [] → (∀ l ∈ L, '\n' ∉ l) →
      splitCharL '\n' (joinNLL L) = L
  | [], hne, _ => absurd rfl hne
  | [l], _, h => by
    show splitCharL '\n' l = [l]
    exact splitCharL_no_sep (h l (by simp))
  | l :: l2 :: ls, _, h => by
    show splitCharL '\n' (l ++ '\n' :: joinNLL (l2 :: ls)) = l :: l2 :: ls
    rw [splitCharL_append _ (h l (by simp))]
    rw [splitCharL_joinNLL (by simp) (fun x hx => h x (List.mem_cons_of_mem _ hx))]

theorem splitLinesS_joinNLS {L : List String} (hne : L ≠ [])
    (h : ∀ l ∈ L, '\n' ∉ l.data) : splitLinesS (joinNLS L) = L := by
  unfold splitLinesS joinNLS
  rw [show (String.mk (joinNLL (L.map String.data))).data = joinNLL (L.map String.data)
    from rfl]
  rw [splitCharL_joinNLL (fun e => hne (List.map_eq_nil_iff.mp e))
    (fun x hx => by
      obtain ⟨s, hs, rfl⟩ := List.mem_map.mp hx
      exact h s hs)]
  rw [List.map_map]
  have hid : ∀ s ∈ L, (String.mk ∘ String.data) s = id s := fun s _ => rfl
  rw [List.map_congr_left hid, List.map_id]

theorem getLast?_map {α β : Type} (f : α → β) :
    ∀ (l : List α), (l.map f).getLast? = l.getLast?.map f
  | [] => rfl
  | [_] => rfl
  | a :: b :: l => by
    have ih := getLast?_map f (b :: l)
    simp only [List.map_cons] at ih ⊢
    rw [List.getLast?_cons_cons, ih, List.getLast?_cons_cons]

theorem getLast?_cons_of_pos {α : Type} {c d : α} {x : List α}
    (h : x.getLast? = some d) : (c :: x).getLast? = some d := by
  cases x with
  | nil => cases h
  | cons y ys =>
    rw [List.getLast?_cons_cons]
    exact h

theorem getLast?_of_ne_nil {α : Type} {l : List α} (h : l ≠ []) :
    ∃ d, l.getLast? = some d := by
  cases l with
  | nil => exact absurd rfl h
  | cons x xs => exact ⟨_, List.getLast?_eq_getLast _ (by simp)⟩

theorem joinNLL_getLast? :
    ∀ {L : List (List Char)} {last : List Char}, L.getLast? = some last → last ≠ [] →
      (joinNLL L).getLast? = last.getLast?
  | [], _, h, _ => by cases h
  | [l], last, h, _ => by
    have he : l = last := by simpa using h
    subst he
    rfl
  | l :: l2 :: ls, last, h, hlast => by
    rw [List.getLast?_cons_cons] at h
    show (l ++ '\n' :: joinNLL (l2 :: ls)).getLast? = last.getLast?
    rw [List.getLast?_append_cons]
    have ih := joinNLL_getLast? h hlast
    obtain ⟨d, hd⟩ := getLast?_of_ne_nil hlast
    rw [hd] at ih
    rw [getLast?_cons_of_pos ih, hd]

/-! ## The event-stream framing and its decoding -/

/-- A payload line that is well formed for event-stream transport: non-empty,
free of newlines, and already stripped (no leading or trailing whitespace). -/
def goodLineB (l : String) : Bool :=
  (!(l == "")) && (!(l.data.contains '\n')) &&
    l.data.head?.all (fun c => !isPySpace c) &&
    l.data.getLast?.all (fun c => !isPySpace c)

theorem goodLineB_spec {l : String} (h : goodLineB l = true) :
    l ≠ "" ∧ '\n' ∉ l.data ∧
      (∀ c, l.data.head? = some c → isPySpace c = false) ∧
      (∀ c, l.data.getLast? = some c → isPySpace c = false) := by
  unfold goodLineB at h
  simp only [Bool.and_eq_true] at h
  obtain ⟨⟨⟨h1, h2⟩, h3⟩, h4⟩ := h
  refine ⟨by simpa using h1, by simpa using h2, ?_, ?_⟩
  · intro c hc
    rw [hc] at h3
    simpa using h3
  · intro c hc
    rw [hc] at h4
    simpa using h4

/-- An event-stream framing carrying the given payload lines: one `event:`
header line followed by one `data:` line per payload line, joined by
newlines. -/
def sseFrame (lines : List String) : String :=
  joinNLS ("event: message" :: lines.map (fun l => "data: " ++ l))

theorem sseFrame_startsWith (l : String) (ls : List String) :
    startsWithS (sseFrame (l :: ls)) "event:" = true := rfl

theorem sseFrame_head? (l : String) (ls : List String) :
    (sseFrame (l :: ls)).data.head? = some 'e' := rfl

theorem sseFrame_getLast? {lines : List String} {last : String}
    (hlast : lines.getLast? = some last) (hne : last ≠ "") :
    (sseFrame lines).data.getLast? = last.data.getLast? := by
  obtain ⟨l, ls, rfl⟩ : ∃ l ls, lines = l :: ls := by
    cases lines with
    | nil => cases hlast
    | cons a b => exact ⟨a, b, rfl⟩
  have hshape : (sseFrame (l :: ls)).data
      = "event: message".data ++ '\n' ::
        joinNLL (((l :: ls).map (fun x => "data: " ++ x)).map String.data) := rfl
  rw [hshape, List.getLast?_append_cons]
  have hmap : (((l :: ls).map (fun x => "data: " ++ x)).map String.data).getLast?
      = some (("data: " ++ last).data) := by
    rw [getLast?_map, getLast?_map, hlast]
    rfl
  have hdata_ne : ("data: " ++ last).data ≠ [] := by
    rw [show ("data: " ++ last).data = 'd' :: ("ata: " ++ last).data from rfl]
    exact List.cons_ne_nil _ _
  have hjoin := joinNLL_getLast? hmap hdata_ne
  have hsuffix : ("data: " ++ last).data.getLast? = last.data.getLast? := by
    rw [show ("data: " ++ last).data = "data: ".data ++ last.data from rfl]
    exact List.getLast?_append_of_ne_nil _ (data_ne_nil hne)
  rw [hsuffix] at hjoin
  obtain ⟨d, hd⟩ := getLast?_of_ne_nil (data_ne_nil hne)
  rw [hd] at hjoin
  rw [getLast?_cons_of_pos hjoin, hd]

theorem trimS_sseFrame {lines : List String} (hne : lines ≠ [])
    (hgood : ∀ l ∈ lines, goodLineB l = true) :
    trimS (sseFrame lines) = sseFrame lines := by
  obtain ⟨l, ls, rfl⟩ : ∃ l ls, lines = l :: ls := by
    cases lines with
    | nil => exact absurd rfl hne
    | cons a b => exact ⟨a, b, rfl⟩
  obtain ⟨last, hlast⟩ := getLast?_of_ne_nil (l := l :: ls) (by simp)
  have hlast_mem : last ∈ l :: ls := by
    have := List.getLast?_eq_getLast (l :: ls) (by simp)
    rw [this] at hlast
    cases hlast
    exact List.getLast_mem _
  have hgl := goodLineB_spec (hgood last hlast_mem)
  unfold trimS
  rw [trimL_eq_self ?h1 ?h2, mk_data]
  case h1 =>
    intro c hc
    rw [sseFrame_head?] at hc
    cases hc
    rfl
  case h2 =>
    intro c hc
    rw [sseFrame_getLast? hlast hgl.1] at hc
    exact hgl.2.2.2 c hc

theorem extractSse_sseFrame {lines : List String}
    (hgood : ∀ l ∈ lines, goodLineB l = true) :
    extractSseData (sseFrame lines) = joinNLS lines := by
  unfold extractSseData
  rw [show sseFrame lines
      = joinNLS ("event: message" :: lines.map (fun l => "data: " ++ l)) from rfl]
  rw [splitLinesS_joinNLS (by simp) ?hnl]
  case hnl =>
    intro x hx
    rcases List.mem_cons.mp hx with h | h
    · subst h
      decide
    · obtain ⟨s, hs, rfl⟩ := List.mem_map.mp h
      rw [show ("data: " ++ s).data = "data: ".data ++ s.data from rfl]
      intro hmem
      rcases List.mem_append.mp hmem with hm | hm
      · revert hm
        decide
      · exact (goodLineB_spec (hgood s hs)).2.1 hm
  have hfilter : (("event: message" :: lines.map (fun l => "data: " ++ l)).filter
      (fun l => startsWithS l "data:")) = lines.map (fun l => "data: " ++ l) := by
    rw [List.filter_cons_of_neg (by decide)]
    apply List.filter_eq_self.mpr
    intro x hx
    obtain ⟨s, _, rfl⟩ := List.mem_map.mp hx
    rfl
  rw [hfilter, List.map_map]
  have hmap : ∀ s ∈ lines,
      ((fun l => trimS (dropS l 5)) ∘ (fun l => "data: " ++ l)) s = id s := by
    intro s hs
    obtain ⟨-, -, hh, hl⟩ := goodLineB_spec (hgood s hs)
    show trimS (dropS ("data: " ++ s) 5) = s
    unfold trimS dropS
    rw [show (String.mk (("data: " ++ s).data.drop 5)).data = ' ' :: s.data from rfl]
    rw [trimL_space_cons hh hl, mk_data]
  rw [List.map_congr_left hmap, List.map_id]

/-! ## Claim theorems -/

/-- A concrete JSON codec used by the closed witnesses below: it recognizes
the literal `null` and reports `Expecting value` otherwise, standing in for
`json.loads` at a single point of its graph. -/
def parseW : JsonParser :=
  fun s => if s = "null" then Except.ok PyVal.null else Except.error "Expecting value"

/-- C1: every tool request sent through `_make_request` of the
grok_plus/grok_plus_2 transport returns a plain error/result mapping and no
exception escapes: an HTTP-level failure of the post itself yields an error
value carrying the cause, a non-2xx status yields
`HTTP <status>: <body>`, a JSON decode failure yields
`JSON decode error: <cause> - Response: <raw body>`, and a successful decode
returns the decoded value.  (In the gpt variant no tool request ever passes
the session guard, cf. the C10 theorem.) -/
theorem transport_error_mapping (parse : JsonParser) :
    (∀ cause, makeRequest parse (.failure cause) = .dict [("error", .str cause)]) ∧
    (∀ status body, is2xx status = false →
      makeRequest parse (.response status body)
        = .dict [("error", .str ("HTTP " ++ toString status ++ ": " ++ body))]) ∧
    (∀ status body cause, is2xx status = true →
      decodeBody parse body = .error cause →
      makeRequest parse (.response status body)
        = .dict [("error",
            .str ("JSON decode error: " ++ cause ++ " - Response: " ++ body))]) ∧
    (∀ status body v, is2xx status = true → decodeBody parse body = .ok v →
      makeRequest parse (.response status body) = v) := by
  refine ⟨fun _ => rfl, ?_, ?_, ?_⟩
  · intro status body h
    simp [makeRequest, h]
  · intro status body cause h hdec
    simp [makeRequest, h, hdec]
  · intro status body v h hdec
    simp [makeRequest, h, hdec]

/-- Witness for C1 at concrete inputs: a 404 response and an undecodable 200
response. -/
theorem transport_error_mapping_witness :
    makeRequest parseW (.response 404 "nope")
      = .dict [("error", .str ("HTTP " ++ toString 404 ++ ": " ++ "nope"))] ∧
    makeRequest parseW (.response 200 "xx")
      = .dict [("error",
          .str ("JSON decode error: " ++ "Expecting value" ++ " - Response: " ++ "xx"))] :=
  ⟨(transport_error_mapping parseW).2.1 404 "nope" rfl,
   (transport_error_mapping parseW).2.2.1 200 "xx" "Expecting value" rfl rfl⟩

/-- C2: for a response body carrying the same logical content, the transport
decodes the event-stream framing and the plain-JSON framing identically:
the `data:` payload lines of the framed body are extracted, joined with
newlines and parsed, and the result equals parsing the plain body directly. -/
theorem sse_plain_equivalence (parse : JsonParser) (lines : List String) (v : PyVal)
    (hne : lines ≠ [])
    (hgood : ∀ l ∈ lines, goodLineB l = true)
    (hplain : startsWithS (trimS (joinNLS lines)) "event:" = false)
    (hparse : parse (joinNLS lines) = Except.ok v) :
    makeRequest parse (.response 200 (sseFrame lines)) = v ∧
    makeRequest parse (.response 200 (joinNLS lines)) = v := by
  obtain ⟨l, ls, rfl⟩ : ∃ l ls, lines = l :: ls := by
    cases lines with
    | nil => exact absurd rfl hne
    | cons a b => exact ⟨a, b, rfl⟩
  constructor
  · have hdec : decodeBody parse (sseFrame (l :: ls)) = Except.ok v := by
      unfold decodeBody
      rw [trimS_sseFrame hne hgood, sseFrame_startsWith, if_pos rfl,
        extractSse_sseFrame hgood, hparse]
    simp [makeRequest, hdec, show is2xx 200 = true from rfl]
  · have hdec : decodeBody parse (joinNLS (l :: ls)) = Except.ok v := by
      unfold decodeBody
      rw [hplain]
      simp [hparse]
    simp [makeRequest, hdec, show is2xx 200 = true from rfl]

/-- Witness for C2: the two-line payload `nu` / `ll` framed as an event
stream decodes to the same value as the plain body `nu\nll` would, here with
a codec recognizing that body. -/
theorem sse_plain_equivalence_witness :
    makeRequest (fun s => if s = "nu\nll" then Except.ok (PyVal.str "ok")
        else Except.error "Expecting value")
      (.response 200 (sseFrame ["nu", "ll"])) = PyVal.str "ok" ∧
    makeRequest (fun s => if s = "nu\nll" then Except.ok (PyVal.str "ok")
        else Except.error "Expecting value")
      (.response 200 (joinNLS ["nu", "ll"])) = PyVal.str "ok" :=
  sse_plain_equivalence _ ["nu", "ll"] (PyVal.str "ok") (by decide) (by decide)
    (by decide) (by rfl)

/-- C3: the classifier assigns Error whenever the payload is a dict that
contains an `error` key, or whenever its `result` field is a string matching
a member of the fixed keyword set case-insensitively; the Error arms sit
before the Skipped arm of the chain, so in particular
`\x7b"result": "Ошибка: не найден"\x7d` is Error, not Skipped. -/
theorem classifier_error_rules :
    (∀ kvs, hasKey kvs "error" = true → classify (.dict kvs) = some .error) ∧
    (∀ kvs s, dictGet kvs "result" = some (.str s) →
      (errorKeywords.any fun kw => containsSubS (pyLowerS s) kw) = true →
      classify (.dict kvs) = some .error) ∧
    (classify (.dict [("result", .str "Ошибка: не найден")]) = some .error ∧
      classify (.dict [("result", .str "Ошибка: не найден")]) ≠ some .skipped) := by
  refine ⟨?_, ?_, by rfl, by decide⟩
  · intro kvs h
    simp [classify, pyIn, h]
  · intro kvs s hres hkw
    have hkh : keywordHit (PyVal.dict kvs) = true := by
      simp only [keywordHit]
      rw [hres]
      exact hkw
    rcases Bool.eq_false_or_eq_true (hasKey kvs "error") with he | he
    · simp [classify, pyIn, he, hkh]
    · simp [classify, pyIn, he, hkh]

/-- Witness for C3: an error-keyed dict, and a keyword hit through the
`result` field (English keyword, mixed case). -/
theorem classifier_error_rules_witness :
    classify (.dict [("error", .null)]) = some .error ∧
    classify (.dict [("x", .null), ("result", .str "Object Not Found")]) = some .error :=
  ⟨classifier_error_rules.1 [("error", .null)] rfl,
   classifier_error_rules.2.1 [("x", .null), ("result", .str "Object Not Found")]
     "Object Not Found" rfl rfl⟩

/-- The successful `tools/call` payload whose result declares `isError: true`,
used to separate the dispatcher variants. -/
def c4resultData : List (String × PyVal) :=
  [("content", .list [.dict [("type", .str "text"), ("text", .str "boom")]]),
   ("isError", .bool true)]

/-- The corresponding `_make_request` response. -/
def c4resp : PyVal := .dict [("result", .dict c4resultData)]

/-- C4 counterexample: the grok_plus_2 dispatcher (`call_tool`, lines 146-161,
one of the two code places the claim cites) returns `isError = false` on the
success path even when the payload's `isError` field is `true`, so the
returned flag does not equal the payload's field. -/
theorem call_tool_ignores_isError :
    dictGet c4resultData "isError" = some (.bool true) ∧
    callToolOnResp c4resp = some ⟨[.text "boom"], false⟩ ∧
    callToolOnResp c4resp ≠ some ⟨[.text "boom"], true⟩ := by
  refine ⟨rfl, rfl, by decide⟩

/-- C4 amended: on a transport error both dispatcher variants return the
single content item `Text("Error: <message>")` with `isError = true`.  On a
successful response the grok_plus_2/grok_plus/gpt dispatcher keeps the Text
items of the payload's content array with `isError` unconditionally false
(the payload's `isError` field is ignored), while the testMCP dispatcher
keeps Text and Image items and takes `isError` from the payload, defaulting
to false only when the field is absent. -/
theorem call_tool_result_mapping :
    (∀ kvs msg, dictGet kvs "error" = some (.str msg) →
      callToolOnResp (.dict kvs) = some ⟨[.text ("Error: " ++ msg)], true⟩ ∧
      callToolOnRespM (.dict kvs) = some ⟨[.text ("Error: " ++ msg)], true⟩) ∧
    (∀ kvs rkvs items content, hasKey kvs "error" = false →
      dictGet kvs "result" = some (.dict rkvs) →
      dictGet rkvs "content" = some (.list items) →
      extractTextItems items = some content →
      callToolOnResp (.dict kvs) = some ⟨content, false⟩) ∧
    (∀ kvs rkvs items content, hasKey kvs "error" = false →
      dictGet kvs "result" = some (.dict rkvs) →
      dictGet rkvs "content" = some (.list items) →
      extractItemsM items = some content →
      (dictGet rkvs "isError" = none →
        callToolOnRespM (.dict kvs) = some ⟨content, false⟩) ∧
      (∀ b, dictGet rkvs "isError" = some (.bool b) →
        callToolOnRespM (.dict kvs) = some ⟨content, b⟩)) := by
  refine ⟨?_, ?_, ?_⟩
  · intro kvs msg hget
    have hk : hasKey kvs "error" = true := by
      unfold hasKey
      rw [hget]
      rfl
    constructor
    · simp [callToolOnResp, pyIn, hk, hget, pyStr]
    · simp [callToolOnRespM, pyIn, hk, hget, pyStr]
  · intro kvs rkvs items content herr hres hcont hext
    simp [callToolOnResp, pyIn, herr, hres, hcont, hext, iterItems]
  · intro kvs rkvs items content herr hres hcont hext
    constructor
    · intro hie
      simp [callToolOnRespM, pyIn, herr, hres, hcont, hext, hie, iterItems]
    · intro b hie
      simp [callToolOnRespM, pyIn, herr, hres, hcont, hext, hie, iterItems]

/-- Witness for C4 (amended): the testMCP dispatcher honours the payload's
`isError: true` on the very payload of the counterexample, and the error
branch produces the synthesized error result. -/
theorem call_tool_result_mapping_witness :
    callToolOnRespM c4resp = some ⟨[.text "boom"], true⟩ ∧
    callToolOnResp (.dict [("error", .str "down")])
      = some ⟨[.text ("Error: " ++ "down")], true⟩ :=
  ⟨((call_tool_result_mapping.2.2 [("result", .dict c4resultData)] c4resultData
      [.dict [("type", .str "text"), ("text", .str "boom")]] [.text "boom"]
      rfl rfl rfl rfl).2 true rfl),
   (call_tool_result_mapping.1 [("error", .str "down")] "down" rfl).1⟩

/-- C5: when the grok_plus_2 handshake succeeds but the response carries no
session-identifier header, the client proceeds in sessionless mode: the
stored session id is absent, every subsequent tool request omits the
`Mcp-Session-Id` header entirely, and the request is still posted and decoded
normally instead of being rejected. -/
theorem sessionless_mode (parse : JsonParser) (st0 : ClientState) (status : Nat)
    (body : String) (hdr : String → Option String) (data : PyVal)
    (hdec : decodeBody parse body = .ok data)
    (hok : initOk data = true)
    (hnohdr : hdr "Mcp-Session-Id" = none) :
    (initializeSession parse st0 (.response status body) hdr).1 = true ∧
    (initializeSession parse st0 (.response status body) hdr).2.sessionId = none ∧
    (∀ authToken parse2 out p,
      p ∈ (grokToolRequest (initializeSession parse st0 (.response status body) hdr).2
        authToken parse2 out).1 → p.1 ≠ "Mcp-Session-Id") ∧
    (∀ authToken parse2 out,
      (grokToolRequest (initializeSession parse st0 (.response status body) hdr).2
        authToken parse2 out).2 = makeRequest parse2 out) := by
  have hinit : initializeSession parse st0 (.response status body) hdr
      = (true, { st0 with sessionId := hdr "Mcp-Session-Id" }) := by
    simp [initializeSession, hdec, hok]
  refine ⟨by rw [hinit], by rw [hinit]; simpa using hnohdr, ?_, ?_⟩
  · intro authToken parse2 out p hp
    rw [hinit] at hp
    simp only [grokToolRequest, hnohdr, buildHeaders] at hp
    rcases authToken with - | t
    · simp at hp
      rcases hp with h | h <;> simp [h]
    · by_cases ht : t = ""
      · simp [ht] at hp
        rcases hp with h | h <;> simp [h]
      · simp [ht] at hp
        rcases hp with h | h | h <;> simp [h]
  · intro authToken parse2 out
    rfl

/-- A concrete codec for the C5 witness: every body decodes to a populated
`result`. -/
def parseInitW : JsonParser := fun _ => Except.ok (PyVal.dict [("result", .dict [])])

/-- Witness for C5: a concrete sessionless handshake. -/
theorem sessionless_mode_witness :
    (initializeSession parseInitW ⟨none⟩ (.response 200 "ok") (fun _ => none)).1
      = true ∧
    (initializeSession parseInitW ⟨none⟩ (.response 200 "ok")
      (fun _ => none)).2.sessionId = none :=
  ⟨(sessionless_mode parseInitW ⟨none⟩ 200 "ok" (fun _ => none)
      (PyVal.dict [("result", .dict [])]) rfl rfl rfl).1,
   (sessionless_mode parseInitW ⟨none⟩ 200 "ok" (fun _ => none)
      (PyVal.dict [("result", .dict [])]) rfl rfl rfl).2.1⟩

/-- C6: the ListObjects step gates the round: when its result classifies as
Error or Skipped, or when it classifies as Success but the listing parses to
no object names, the round issues no `get_metadata_structure`,
`list_predefined_data` or `get_predefined_data` call.  The literal
empty-string result payload classifies as Skipped. -/
theorem round_gating (env : RoundEnv) (s0 : Stats) :
    ((classify env.listResult = some .error ∨ classify env.listResult = some .skipped ∨
        (classify env.listResult = some .success ∧
          parseObjects env.listResult = some [])) →
      ∀ calls stats, runRound env s0 = some (calls, stats) →
        calls = [Method.listObjects] ∧ Method.getStructure ∉ calls ∧
          Method.listPredefined ∉ calls ∧ Method.getPredefined ∉ calls) ∧
    classify (.dict [("result", .str "")]) = some Verdict.skipped := by
  refine ⟨?_, rfl⟩
  intro h calls stats hrun
  have hcalls : calls = [Method.listObjects] := by
    rcases h with hc | hc | ⟨hc, hp⟩
    · simp [runRound, hc] at hrun
      exact hrun.1.symm
    · simp [runRound, hc] at hrun
      exact hrun.1.symm
    · simp [runRound, hc, hp] at hrun
      exact hrun.1.symm
  subst hcalls
  exact ⟨rfl, by decide, by decide, by decide⟩

/-- The round inputs of the C6 witness: the listing reports an error. -/
def envGateW : RoundEnv where
  metaType := "Catalogs"
  listResult := .dict [("error", .str "x")]
  structResult := .null
  predListResult := .null
  predResult := fun _ => .null
  objPick := 0
  samplePick := fun l => l

/-- Witness for C6: a concrete round whose listing errored issues only the
listing call. -/
theorem round_gating_witness :
    [Method.listObjects] = [Method.listObjects] ∧
      Method.getStructure ∉ [Method.listObjects] ∧
      Method.listPredefined ∉ [Method.listObjects] ∧
      Method.getPredefined ∉ [Method.listObjects] :=
  (round_gating envGateW Stats.zero).1 (Or.inl rfl) [Method.listObjects]
    (record Stats.zero .listObjects .error) rfl

/-- Every call recorded in the accumulator survives the predefined-data
loop. -/
theorem recordPredCalls_mem (env : RoundEnv) :
    ∀ (sel : List PyVal) (acc r : List Method × Stats),
      recordPredCalls env sel acc = some r → ∀ m ∈ acc.1, m ∈ r.1 := by
  intro sel
  induction sel with
  | nil =>
    intro acc r h m hm
    cases h
    exact hm
  | cons nm rest ih =>
    intro acc r h m hm
    rw [show recordPredCalls env (nm :: rest) acc
        = (if pyTruthy nm then
            match classify (env.predResult nm) with
            | none => none
            | some dv => recordPredCalls env rest
                (acc.1 ++ [Method.getPredefined], record acc.2 .getPredefined dv)
          else recordPredCalls env rest acc) from rfl] at h
    by_cases ht : pyTruthy nm = true
    · rw [if_pos ht] at h
      cases hc : classify (env.predResult nm) with
      | none => rw [hc] at h; cases h
      | some dv =>
        rw [hc] at h
        exact ih _ _ h m (List.mem_append.mpr (Or.inl hm))
    · rw [if_neg ht] at h
      exact ih _ _ h m hm

/-- C7: in a round whose listing succeeded and selected a truthy object name
of a predefined-capable meta-type, the `list_predefined_data` call is issued
no matter how the preceding `get_metadata_structure` call classified — the
structure verdict is recorded but does not abort the round before the
predefined branch. -/
theorem structure_failure_does_not_gate (env : RoundEnv) (s0 : Stats)
    (objs : List PyVal)
    (hsucc : classify env.listResult = some .success)
    (hobjs : parseObjects env.listResult = some objs)
    (hne : objs.isEmpty = false)
    (hname : pyTruthy (chooseAt objs env.objPick) = true)
    (hmeta : env.metaType ∈ predefinedSupportedTypes)
    (calls : List Method) (stats : Stats)
    (hrun : runRound env s0 = some (calls, stats)) :
    Method.listPredefined ∈ calls := by
  simp only [runRound, hsucc, hobjs, hne, hname, hmeta] at hrun
  simp only [Bool.false_eq_true, if_false, if_pos trivial, if_true] at hrun
  cases hsv : classify env.structResult with
  | none =>
    simp only [hsv] at hrun
    cases hrun
  | some sv =>
    simp only [hsv] at hrun
    cases hpv : classify env.predListResult with
    | none =>
      simp only [hpv] at hrun
      cases hrun
    | some pv =>
      simp only [hpv] at hrun
      cases pv with
      | error =>
        cases hrun
        decide
      | skipped =>
        cases hrun
        decide
      | success =>
        cases hpp : parsePredefined env.predListResult with
        | none =>
          simp only [hpp] at hrun
          cases hrun
        | some pobjs =>
          simp only [hpp] at hrun
          by_cases hpe : pobjs.isEmpty = true
          · rw [if_pos hpe] at hrun
            cases hrun
            decide
          · rw [if_neg hpe] at hrun
            exact recordPredCalls_mem env _ _ _ hrun Method.listPredefined
              (show Method.listPredefined
                  ∈ [Method.listObjects, Method.getStructure, Method.listPredefined]
                from by decide)

/-- The round inputs of the C7 witness: the listing succeeds with one object,
the structure call errors, the predefined listing is skipped. -/
def envPredW : RoundEnv where
  metaType := "Catalogs"
  listResult := .list [.str "A"]
  structResult := .dict [("error", .str "x")]
  predListResult := .dict [("result", .str "")]
  predResult := fun _ => .null
  objPick := 0
  samplePick := fun l => l

/-- Witness for C7: in a concrete round whose structure call errored, the
predefined listing call is still issued. -/
theorem structure_failure_does_not_gate_witness :
    Method.listPredefined
      ∈ [Method.listObjects, Method.getStructure, Method.listPredefined] :=
  structure_failure_does_not_gate envPredW Stats.zero [.str "A"] rfl rfl rfl rfl
    (by decide) [Method.listObjects, Method.getStructure, Method.listPredefined]
    ⟨⟨1, 1, 0, 0⟩, ⟨1, 0, 1, 0⟩, ⟨1, 0, 0, 1⟩, ⟨0, 0, 0, 0⟩⟩ rfl

/-- C8: the summary has one row per method in the fixed order, each row's
rate is `success / total * 100` with the zero-total case explicitly guarded
to 0 (no division is performed when `total = 0`), and the final totals row
sums the four methods' counters. -/
theorem summary_table_spec (s : Stats) :
    ((summarize s).1.map SummaryRow.method = methodOrder) ∧
    ((summarize s).1 = [mkRow "list_metadata_objects" s.listObjects,
        mkRow "get_metadata_structure" s.getStructure,
        mkRow "list_predefined_data" s.listPredefined,
        mkRow "get_predefined_data" s.getPredefined]) ∧
    (∀ row ∈ (summarize s).1,
      row.rate = if 0 < row.total then (row.success : ℚ) / (row.total : ℚ) * 100
        else 0) ∧
    (∀ row ∈ (summarize s).1, row.total = 0 → row.rate = 0) ∧
    ((summarize s).2.total = s.listObjects.total + s.getStructure.total
      + s.listPredefined.total + s.getPredefined.total) ∧
    ((summarize s).2.success = s.listObjects.success + s.getStructure.success
      + s.listPredefined.success + s.getPredefined.success) ∧
    ((summarize s).2.errors = s.listObjects.errors + s.getStructure.errors
      + s.listPredefined.errors + s.getPredefined.errors) ∧
    ((summarize s).2.skipped = s.listObjects.skipped + s.getStructure.skipped
      + s.listPredefined.skipped + s.getPredefined.skipped) ∧
    ((summarize s).2.rate
      = successRate (summarize s).2.success (summarize s).2.total) := by
  have hrow : ∀ row ∈ (summarize s).1,
      row.rate = if 0 < row.total then (row.success : ℚ) / (row.total : ℚ) * 100
        else 0 := by
    intro row hrow
    simp only [summarize, List.mem_cons, List.not_mem_nil, or_false] at hrow
    rcases hrow with h | h | h | h
    all_goals (subst h; rfl)
  refine ⟨rfl, rfl, hrow, ?_, rfl, rfl, rfl, rfl, rfl⟩
  intro row hr h0
  rw [hrow row hr, h0]
  rfl

/-- Witness for C8: on the empty statistics table every row reports rate 0. -/
theorem summary_table_spec_witness :
    (mkRow "list_metadata_objects" Stats.zero.listObjects).rate = 0 :=
  (summary_table_spec Stats.zero).2.2.2.1
    (mkRow "list_metadata_objects" Stats.zero.listObjects)
    (by simp [summarize]) rfl

/-- Recording two verdicts commutes. -/
theorem recordVerdict_swap (m : MethodStats) (a b : Verdict) :
    recordVerdict (recordVerdict m a) b = recordVerdict (recordVerdict m b) a := by
  cases a <;> cases b <;> rfl

/-- Folding verdicts is invariant under permutations. -/
theorem foldl_recordVerdict_perm {l1 l2 : List Verdict} (h : l1.Perm l2) :
    ∀ m : MethodStats, l1.foldl recordVerdict m = l2.foldl recordVerdict m := by
  induction h with
  | nil => intro m; rfl
  | cons x _ ih =>
    intro m
    simp only [List.foldl_cons]
    exact ih _
  | swap x y l =>
    intro m
    simp only [List.foldl_cons]
    rw [recordVerdict_swap]
  | trans _ _ ih1 ih2 =>
    intro m
    rw [ih1, ih2]

/-- C9: statistics accumulation is permutation-invariant; recording
`[Success, Error, Skipped, Success]` in any order yields
`total = 4, success = 2, errors = 1, skipped = 1`; and each recorded verdict
increments `total` plus exactly one of the three outcome counters. -/
theorem stats_accumulation_perm_invariant :
    (∀ (l1 l2 : List Verdict) (m : MethodStats), l1.Perm l2 →
      l1.foldl recordVerdict m = l2.foldl recordVerdict m) ∧
    ([Verdict.success, .error, .skipped, .success].foldl recordVerdict .zero
      = ⟨4, 2, 1, 1⟩) ∧
    (∀ m v, (recordVerdict m v).total = m.total + 1 ∧
      (((recordVerdict m v).success = m.success + 1 ∧
          (recordVerdict m v).errors = m.errors ∧
          (recordVerdict m v).skipped = m.skipped) ∨
        ((recordVerdict m v).success = m.success ∧
          (recordVerdict m v).errors = m.errors + 1 ∧
          (recordVerdict m v).skipped = m.skipped) ∨
        ((recordVerdict m v).success = m.success ∧
          (recordVerdict m v).errors = m.errors ∧
          (recordVerdict m v).skipped = m.skipped + 1))) := by
  refine ⟨fun l1 l2 m h => foldl_recordVerdict_perm h m, rfl, ?_⟩
  intro m v
  cases v with
  | success => exact ⟨rfl, Or.inl ⟨rfl, rfl, rfl⟩⟩
  | error => exact ⟨rfl, Or.inr (Or.inl ⟨rfl, rfl, rfl⟩)⟩
  | skipped => exact ⟨rfl, Or.inr (Or.inr ⟨rfl, rfl, rfl⟩)⟩

/-- Witness for C9: a concrete permutation of the four-verdict sequence
accumulates to the same counters. -/
theorem stats_accumulation_perm_invariant_witness :
    [Verdict.success, .error, .skipped, .success].foldl recordVerdict .zero
      = [Verdict.skipped, .success, .success, .error].foldl recordVerdict .zero :=
  stats_accumulation_perm_invariant.1 _ _ MethodStats.zero (by decide)

/-- C10: in the testMCP_gpt variant the handshake never assigns the session
id, `_make_request` rejects every call with `Session not initialized` while
the session id is absent, and therefore every `call_tool` invocation — for
any tool name, arguments, and would-be server behaviour — returns the error
`ToolResult` with `Text("Error: Session not initialized")` and
`isError = true`, without any HTTP tool request being sent. -/
theorem gpt_variant_always_session_error :
    (∀ parse out, ((gptInitializeSession parse ⟨none⟩ out).2).sessionId = none) ∧
    (∀ parse out, gptMakeRequest ⟨none⟩ parse out
      = (.dict [("error", .str "Session not initialized")], false)) ∧
    (∀ parse name args out, gptCallTool ⟨none⟩ parse name args out
      = (some ⟨[.text "Error: Session not initialized"], true⟩, false)) :=
  ⟨fun _ _ => rfl, fun _ _ => rfl, fun _ _ _ _ => rfl⟩

end MCPSpec
